import Mathlib

/-!
Verification of the stylist command-line driver (`source/stylist/__main__.py`).

The code of the driver itself — the style-selection policy, the registration order of
extension pipelines, the breadth-first candidate queue of `__process`, the
report printing of `perform` and the exit-code logic of `main` — is embedded
faithfully below.  Collaborators that live outside the repository slice
verified here (the check engine, the source factory, the issue class, the pipe
description parser and the filesystem) are modelled at their interface, each
marked `Modelled from the spec:` in its doc comment.
-/

namespace Stylist

/-- A filesystem path, modelled as its POSIX string form. -/
abbrev Path := String

/-- Modelled from the spec: a Style is a named, ordered collection of rules.
The driver never inspects a style, it only selects styles from the
configuration and hands them to the check engine, so styles are opaque
tokens here. -/
abbrev Style := String

/-- Modelled from the spec: an Issue carries a file path, an optional line
and a message; the driver treats issues opaquely apart from printing them. -/
structure Issue where
  filename : Path
  line : Option Nat
  description : String
  deriving DecidableEq, Repr

/-- Modelled from the spec: the printed form of an issue (`str(issue)` in the
driver).  The exact format is owned by the issue class outside this slice;
the driver only relies on it being a deterministic function of the issue. -/
def Issue.str (i : Issue) : String :=
  match i.line with
  | some l => i.filename ++ ":" ++ toString l ++ ": " ++ i.description
  | none => i.filename ++ ": " ++ i.description

/-- The exception type raised by the driver (`StylistException`). -/
structure StylistException where
  message : String
  deriving DecidableEq, Repr

/-- The configuration object consumed by `perform`: a mapping from style name
to style (`configuration.styles`, a dict, modelled as an association list in
insertion order) and the extension-to-pipeline mapping declared by the
configuration file (`configuration.file_pipes`, likewise). -/
structure Configuration where
  styles : List (String × Style)
  file_pipes : List (String × String)

/-- Dictionary lookup `configuration.styles[name]` / `name in configuration.styles`. -/
def lookupStyle (styles : List (String × Style)) (name : String) : Option Style :=
  (styles.find? (fun kv => kv.1 == name)).map (fun kv => kv.2)

/-- Modelled from the spec: the process-wide extension-to-pipeline store of
`SourceFactory`, a mapping from extension to pipeline descriptor. -/
abbrev Factory := String → Option String

/-- Modelled from the spec: `SourceFactory.add_extension` stores or
overwrites the mapping for one extension (later registrations for the same
extension win). -/
def add_extension (f : Factory) (ext pipe : String) : Factory :=
  fun x => if x == ext then some pipe else f x

/-- Modelled from the spec: `SourceFactory.get_extensions` exposes the set of
registered extensions; `__process` uses it only for membership tests, so it
is modelled as the membership predicate of the store. -/
def get_extensions (f : Factory) : String → Bool :=
  fun ext => (f ext).isSome

/-- Split a character list at every occurrence of a separator character
(Python `str.split` on a one-character separator, with `acc` holding the
reversed current token). -/
def splitCharAux (sep : Char) : List Char → List Char → List (List Char)
  | [], acc => [acc.reverse]
  | c :: rest, acc =>
    if c = sep then acc.reverse :: splitCharAux sep rest []
    else splitCharAux sep rest (c :: acc)

/-- The colon-separated tokens of a string. -/
def splitColon (s : String) : List String :=
  (splitCharAux ':' s.toList []).map (fun l => String.mk l)

/-- Rejoin tokens with colons (the inverse of `splitColon` on token lists). -/
def joinColon : List String → String
  | [] => ""
  | [x] => x
  | x :: rest => x ++ ":" ++ joinColon rest

/-- Modelled from the spec: `ConfigTools.parse_pipe_description` parses the
textual form `EXTENSION:PARSER[:PREPROCESSOR]...`: the colon-separated
tokens must number at least two; the first is the extension and the rest
form the pipeline descriptor. -/
def parse_pipe_description (s : String) : Except StylistException (String × String) :=
  match splitColon s with
  | ext :: tok :: rest => Except.ok (ext, joinColon (tok :: rest))
  | _ => Except.error ⟨"Malformed pipe description."⟩

/-- Last index of a character in a character list (Python `str.rfind`). -/
def rfindChar (c : Char) : List Char → Option Nat
  | [] => none
  | x :: xs =>
    match rfindChar c xs with
    | some i => some (i + 1)
    | none => if x == c then some 0 else none

/-- Final component of a POSIX path (`pathlib.PurePath.name`). -/
def pathName (p : Path) : String :=
  (((splitCharAux '/' p.toList []).map (fun l => String.mk l)).getLastD p)

/-- Modelled from the Python standard library: `pathlib.PurePath.suffix` is
the final dot-led extension of the name of the path, empty when the last dot is
the first or last character of the name. -/
def pathSuffix (p : Path) : String :=
  let name := pathName p
  match rfindChar '.' name.toList with
  | some i => if 0 < i ∧ i + 1 < name.length then String.mk (name.toList.drop i) else ""
  | none => ""

/-- The extension test used by `__process`: `leaf_filename.suffix[1:]`,
the suffix with its first character (the dot) removed. -/
def suffixTail (p : Path) : String :=
  String.mk ((pathSuffix p).toList.drop 1)

/-- Modelled from the spec: the filesystem as `__process` consults it —
whether a path is a directory (`Path.is_dir`) and the entries listed by a
directory (`Path.iterdir`, in listing order). -/
structure FileSys where
  isDir : Path → Bool
  children : Path → List Path

/-- The candidate-queue loop of `__process`: pop the front candidate; a
directory contributes those of its entries whose extension (without the
leading dot) is registered, or which are themselves directories, to the back
of the queue; any other candidate is checked and its issues appended.  The
loop is fuel-indexed because the `while` loop of the source has no intrinsic
bound; `none` means the fuel ran out with candidates remaining.  On `some`,
the result carries the accumulated issues and the final candidate list. -/
def processAux (fs : FileSys) (hot : String → Bool) (check : Path → List Issue) :
    Nat → List Path → List Issue → Option (List Issue × List Path)
  | _, [], issues => some (issues, [])
  | 0, _ :: _, _ => none
  | fuel + 1, c :: cs, issues =>
    if fs.isDir c then
      processAux fs hot check fuel
        (cs ++ (fs.children c).filter (fun l => hot (suffixTail l) || fs.isDir l)) issues
    else
      processAux fs hot check fuel cs (issues ++ check c)

/-- The body of `__process`, starting from an empty issue list.  `hot` is
`SourceFactory.get_extensions()` and `check` is `engine.check` for the
engine built from the active styles. -/
def process (fs : FileSys) (hot : String → Bool) (check : Path → List Issue)
    (fuel : Nat) (candidates : List Path) : Option (List Issue × List Path) :=
  processAux fs hot check fuel candidates []

/-- The style-name loop of `perform` (the `if style:` branch): look every
requested name up in the configuration, in order, failing at the first name
the configuration does not define. -/
def selectNamed (config : Configuration) : List String → Except StylistException (List Style)
  | [] => Except.ok []
  | name :: rest =>
    match lookupStyle config.styles name with
    | some s => (selectNamed config rest).map (fun ss => s :: ss)
    | none =>
      Except.error ⟨"Style \x22" ++ name ++ "\x22 is not defined by the configuration."⟩

/-- The style-selection block of `perform` (lines after the emptiness guard):
an explicit selection list is resolved name by name; an empty list selects
the single style of the configuration when exactly one is defined and fails
otherwise. -/
def selectStyles (config : Configuration) (style : List String) :
    Except StylistException (List Style) :=
  if style.isEmpty then
    if config.styles.length == 1 then
      Except.ok (config.styles.map (fun kv => kv.2))
    else
      Except.error ⟨"No style specified and more than one defined."⟩
  else
    selectNamed config style

/-- Registration of the pipelines of the configuration file: fold
`SourceFactory.add_extension` over `configuration.file_pipes.items()`. -/
def registerPairs (f : Factory) : List (String × String) → Factory
  | [] => f
  | p :: rest => registerPairs (add_extension f p.1 p.2) rest

/-- The command-line registration loop of `perform`: parse each
`-map-extension` argument and register it; a parse failure propagates as an
exception, leaving the registrations made so far in place. -/
def registerCli (f : Factory) : List String → Factory × Option StylistException
  | [] => (f, none)
  | m :: rest =>
    match parse_pipe_description m with
    | Except.ok p => registerCli (add_extension f p.1 p.2) rest
    | Except.error e => (f, some e)

/-- Outcome of a `perform` call: a raised `StylistException`, fuel exhaustion
of the candidate loop (no counterpart in the source, whose loop simply runs
on), or normal completion with the issue list, the lines printed to stderr
and the lines printed to stdout. -/
inductive PerformOutcome where
  | err (e : StylistException)
  | fuelOut
  | ok (issues : List Issue) (stderrLines : List String) (stdoutLines : List String)
  deriving DecidableEq, Repr

/-- The embedding of `perform`.  The check engine is the parameter `check`
(`CheckEngine(styles).check`), the filesystem is `fs`, and the process-wide
`SourceFactory` state is threaded explicitly: `f0` is its state on entry and
the first component of the result is its state when `perform` returns or
raises.  Faithful to the source order: the no-styles guard, then style
selection, then configuration-file registrations, then command-line
registrations, then `__process`, then report printing. -/
def perform (fs : FileSys) (check : List Style → Path → List Issue) (fuel : Nat)
    (config : Configuration) (source : List Path) (style : List String)
    (map_extension : List String) (verbose : Bool) (f0 : Factory) :
    Factory × PerformOutcome :=
  if config.styles.length == 0 then
    (f0, PerformOutcome.err ⟨"No styles are defined by the configuration."⟩)
  else
    match selectStyles config style with
    | Except.error e => (f0, PerformOutcome.err e)
    | Except.ok styles =>
      let f1 := registerPairs f0 config.file_pipes
      match registerCli f1 map_extension with
      | (f2, some e) => (f2, PerformOutcome.err e)
      | (f2, none) =>
        match process fs (get_extensions f2) (check styles) fuel source with
        | none => (f2, PerformOutcome.fuelOut)
        | some (issues, _) =>
          let stderrLines := issues.map Issue.str
          let tally := issues.length
          let stdoutLines :=
            if 0 < tally ∨ verbose = true then
              ["Found " ++ toString tally ++ " issue" ++ (if 1 < tally then "s" else "")]
            else
              []
          (f2, PerformOutcome.ok issues stderrLines stdoutLines)

/-- The exit-code logic at the end of `main`: `sys.exit(1)` when the issue
list returned by `perform` is truthy (non-empty), `sys.exit(0)` otherwise. -/
def mainExitCode (issues : List Issue) : Nat :=
  if issues.isEmpty then 0 else 1

/-- Whether a `perform` outcome is a raised exception. -/
def PerformOutcome.isErr : PerformOutcome → Bool
  | PerformOutcome.err _ => true
  | _ => false

/-- Parse a whole `-map-extension` argument list into extension/pipe pairs,
failing at the first malformed argument.  (Specification helper: relates a
successful run of `registerCli` to a plain fold of `add_extension`.) -/
def parseAllPipes : List String → Except StylistException (List (String × String))
  | [] => Except.ok []
  | m :: rest =>
    match parse_pipe_description m with
    | Except.ok p => (parseAllPipes rest).map (fun ps => p :: ps)
    | Except.error e => Except.error e

/-- The pipe registered last for an extension by a pair list, if any.
(Specification helper for the last-registration-wins property.) -/
def lastPipeFor : List (String × String) → String → Option String
  | [], _ => none
  | p :: rest, ext =>
    match lastPipeFor rest ext with
    | some v => some v
    | none => if p.1 == ext then some p.2 else none

/-- From the words of the spec, not from the source (the refinement target of the
sortedness claim): lexicographic order on the character lists of two paths. -/
def charListLe : List Char → List Char → Bool
  | [], _ => true
  | _ :: _, [] => false
  | a :: as, b :: bs => if a = b then charListLe as bs else decide (a < b)

/-- From the words of the spec, not from the source: an issue sequence is sorted
by file path when every adjacent pair of issues has lexicographically
ordered paths. -/
def sortedByFilePath : List Issue → Bool
  | [] => true
  | [_] => true
  | a :: b :: rest =>
    charListLe a.filename.toList b.filename.toList && sortedByFilePath (b :: rest)

/-! ## Basic lemmas about the embedded definitions -/

/-- The candidate loop returns immediately on an empty queue, whatever the
fuel. -/
theorem processAux_nil (fs : FileSys) (hot : String → Bool) (check : Path → List Issue)
    (fuel : Nat) (issues : List Issue) :
    processAux fs hot check fuel [] issues = some (issues, []) := by
  cases fuel <;> rfl

/-- One iteration of the candidate loop. -/
theorem processAux_cons (fs : FileSys) (hot : String → Bool) (check : Path → List Issue)
    (fuel : Nat) (c : Path) (cs : List Path) (issues : List Issue) :
    processAux fs hot check (fuel + 1) (c :: cs) issues =
      if fs.isDir c then
        processAux fs hot check fuel
          (cs ++ (fs.children c).filter (fun l => hot (suffixTail l) || fs.isDir l)) issues
      else
        processAux fs hot check fuel cs (issues ++ check c) := rfl

/-- Whenever the candidate loop terminates normally, the candidate queue it
leaves behind is empty. -/
theorem processAux_snd_nil (fs : FileSys) (hot : String → Bool) (check : Path → List Issue) :
    ∀ (fuel : Nat) (cands : List Path) (issues is : List Issue) (rest : List Path),
      processAux fs hot check fuel cands issues = some (is, rest) → rest = [] := by
  intro fuel
  induction fuel with
  | zero =>
    intro cands issues is rest h
    cases cands with
    | nil =>
      rw [processAux_nil] at h
      simp at h
      exact h.2
    | cons c cs => exact absurd h (by simp [processAux])
  | succ k ih =>
    intro cands issues is rest h
    cases cands with
    | nil =>
      rw [processAux_nil] at h
      simp at h
      exact h.2
    | cons c cs =>
      rw [processAux_cons] at h
      by_cases hd : fs.isDir c
      · rw [if_pos hd] at h
        exact ih _ _ _ _ h
      · rw [if_neg hd] at h
        exact ih _ _ _ _ h

/-- Looking an extension up after a fold of `add_extension` yields the pipe
registered last for it, falling back to the initial store. -/
theorem registerPairs_apply :
    ∀ (ps : List (String × String)) (f : Factory) (ext : String),
      registerPairs f ps ext =
        match lastPipeFor ps ext with
        | some v => some v
        | none => f ext := by
  intro ps
  induction ps with
  | nil => intro f ext; rfl
  | cons p rest ih =>
    intro f ext
    show registerPairs (add_extension f p.1 p.2) rest ext = _
    rw [ih]
    cases hrest : lastPipeFor rest ext with
    | some v => simp [lastPipeFor, hrest]
    | none =>
      by_cases hbe : p.1 = ext
      · simp [lastPipeFor, hrest, hbe, add_extension]
      · have hbe2 : (p.1 == ext) = false := by simp [hbe]
        have hbe3 : (ext == p.1) = false := by simp [Ne.symm hbe]
        simp [lastPipeFor, hrest, hbe2, hbe3, add_extension]

/-- When every command-line mapping parses, the command-line registration
loop is the plain fold of `add_extension` over the parsed pairs and raises
nothing. -/
theorem registerCli_ok :
    ∀ (ms : List String) (f : Factory) (ps : List (String × String)),
      parseAllPipes ms = Except.ok ps → registerCli f ms = (registerPairs f ps, none) := by
  intro ms
  induction ms with
  | nil =>
    intro f ps h
    simp [parseAllPipes] at h
    subst h
    rfl
  | cons m rest ih =>
    intro f ps h
    simp only [parseAllPipes] at h
    cases hm : parse_pipe_description m with
    | error e => rw [hm] at h; simp at h
    | ok p =>
      rw [hm] at h
      cases hr : parseAllPipes rest with
      | error e => rw [hr] at h; simp [Except.map] at h
      | ok ps2 =>
        rw [hr] at h
        simp [Except.map] at h
        subst h
        simp only [registerCli, hm]
        exact ih _ _ hr

/-- Every adjacent step of the candidate loop over a queue of plain files
checks the front file and accumulates its issues; with enough fuel the loop
consumes the whole queue and returns the concatenation in queue order. -/
theorem processAux_all_files (fs : FileSys) (hot : String → Bool) (check : Path → List Issue) :
    ∀ (cands : List Path) (extra : Nat) (issues : List Issue),
      (∀ p ∈ cands, fs.isDir p = false) →
      processAux fs hot check (cands.length + extra) cands issues =
        some (issues ++ cands.flatMap check, []) := by
  intro cands
  induction cands with
  | nil =>
    intro extra issues _
    rw [processAux_nil]
    simp
  | cons c cs ih =>
    intro extra issues h
    have hlen : (c :: cs).length + extra = (cs.length + extra) + 1 := by
      simp [List.length]
      omega
    rw [hlen, processAux_cons, if_neg (by simp [h c (by simp)])]
    rw [ih extra (issues ++ check c) (fun p hp => h p (by simp [hp]))]
    simp

/-- Helper for the style-name loop: if any requested name is missing from
the configuration, the loop raises a `StylistException`. -/
theorem selectNamed_err (config : Configuration) :
    ∀ (names : List String),
      (∃ n, n ∈ names ∧ lookupStyle config.styles n = none) →
      ∃ e, selectNamed config names = Except.error e := by
  intro names
  induction names with
  | nil => rintro ⟨n, hn, _⟩; simp at hn
  | cons name rest ih =>
    rintro ⟨n, hn, hnone⟩
    cases hl : lookupStyle config.styles name with
    | none =>
      exact ⟨⟨"Style \x22" ++ name ++ "\x22 is not defined by the configuration."⟩,
        by simp [selectNamed, hl]⟩
    | some s =>
      rcases List.mem_cons.mp hn with heq | hmem
      · subst heq
        rw [hl] at hnone
        simp at hnone
      · obtain ⟨e, he⟩ := ih ⟨n, hmem, hnone⟩
        exact ⟨e, by simp [selectNamed, hl, he, Except.map]⟩

/-! ## Claim theorems -/

/-- C1: with an empty selected-style list, `perform` uses the single
configured style when exactly one is defined (selection yields exactly that
style, and the whole run behaves as if that style had been requested by
name), and fails with the no-style-specified error — before any file is
checked and with the factory untouched — when more than one is defined. -/
theorem c1_empty_selection (fs : FileSys) (check : List Style → Path → List Issue)
    (fuel : Nat) (source : List Path) (map_extension : List String) (verbose : Bool)
    (f0 : Factory) (n : String) (s : Style) (config1 config2 : Configuration)
    (h1 : config1.styles = [(n, s)]) (h2 : 1 < config2.styles.length) :
    (selectStyles config1 [] = Except.ok [s] ∧
     perform fs check fuel config1 source [] map_extension verbose f0 =
       perform fs check fuel config1 source [n] map_extension verbose f0) ∧
    perform fs check fuel config2 source [] map_extension verbose f0 =
      (f0, PerformOutcome.err ⟨"No style specified and more than one defined."⟩) := by
  refine ⟨⟨?_, ?_⟩, ?_⟩
  · simp [selectStyles, h1]
  · simp [perform, selectStyles, selectNamed, lookupStyle, h1, Except.map]
  · have hz : (config2.styles.length == 0) = false := by
      rw [beq_eq_false_iff_ne]
      omega
    have ho : (config2.styles.length == 1) = false := by
      rw [beq_eq_false_iff_ne]
      omega
    simp [perform, selectStyles, hz, ho]

/-- Witness for C1 on a one-style and a two-style configuration. -/
theorem c1_empty_selection_witness :
    (selectStyles ⟨[("st", "s1")], []⟩ [] = Except.ok ["s1"] ∧
     perform ⟨fun _ => false, fun _ => []⟩ (fun _ _ => []) 1 ⟨[("st", "s1")], []⟩ []
         [] [] false (fun _ => none) =
       perform ⟨fun _ => false, fun _ => []⟩ (fun _ _ => []) 1 ⟨[("st", "s1")], []⟩ []
         ["st"] [] false (fun _ => none)) ∧
    perform ⟨fun _ => false, fun _ => []⟩ (fun _ _ => []) 1 ⟨[("a", "x"), ("b", "y")], []⟩ []
        [] [] false (fun _ => none) =
      ((fun _ => none : Factory),
       PerformOutcome.err ⟨"No style specified and more than one defined."⟩) :=
  c1_empty_selection ⟨fun _ => false, fun _ => []⟩ (fun _ _ => []) 1 [] [] false
    (fun _ => none) "st" "s1" ⟨[("st", "s1")], []⟩ ⟨[("a", "x"), ("b", "y")], []⟩
    rfl (by decide)

/-- C2: `perform` registers the pipelines of the configuration file first and the
command-line pipelines afterwards, and `add_extension` is last-writer-wins,
so for an extension mapped by both, the factory `perform` leaves behind
resolves it to the pipe of its last command-line mapping. -/
theorem c2_cli_mapping_wins (fs : FileSys) (check : List Style → Path → List Issue)
    (fuel : Nat) (config : Configuration) (source : List Path) (style : List String)
    (map_extension : List String) (verbose : Bool) (f0 : Factory)
    (ss : List Style) (pairs : List (String × String)) (ext pipe : String)
    (h0 : config.styles ≠ [])
    (hs : selectStyles config style = Except.ok ss)
    (hp : parseAllPipes map_extension = Except.ok pairs)
    (hl : lastPipeFor pairs ext = some pipe)
    (_hc : ext ∈ config.file_pipes.map Prod.fst) :
    (perform fs check fuel config source style map_extension verbose f0).1 ext = some pipe := by
  have hz : (config.styles.length == 0) = false := by
    simp [List.length_eq_zero]
    exact h0
  rw [perform]
  rw [hz]
  simp only [Bool.false_eq_true, if_false]
  rw [hs]
  rw [registerCli_ok map_extension _ pairs hp]
  cases hpr : process fs
      (get_extensions (registerPairs (registerPairs f0 config.file_pipes) pairs))
      (check ss) fuel source with
  | none => simp [hpr, registerPairs_apply, hl]
  | some r =>
    cases r with
    | mk a b => simp [hpr, registerPairs_apply, hl]

/-- Witness for C2: `f90` is mapped by the configuration file and remapped
on the command line; the command-line pipe is in effect. -/
theorem c2_cli_mapping_wins_witness :
    (perform ⟨fun _ => false, fun _ => []⟩ (fun _ _ => []) 1
        ⟨[("st", "s1")], [("f90", "cfgpipe")]⟩ [] [] ["f90:fortran"] false
        (fun _ => none)).1 "f90" = some "fortran" :=
  c2_cli_mapping_wins ⟨fun _ => false, fun _ => []⟩ (fun _ _ => []) 1
    ⟨[("st", "s1")], [("f90", "cfgpipe")]⟩ [] [] ["f90:fortran"] false (fun _ => none)
    ["s1"] [("f90", "fortran")] "f90" "fortran"
    (by decide) rfl rfl rfl (by decide)

/-- C3: the exit status computed by `main` from the issue list returned by
`perform` is 1 on a non-empty list, 0 on the empty list, and non-zero
exactly when the issue count is positive. -/
theorem c3_exit_status (is1 is2 issues : List Issue)
    (h1 : is1 ≠ []) (h2 : is2 = []) :
    mainExitCode is1 = 1 ∧ mainExitCode is2 = 0 ∧
      (mainExitCode issues ≠ 0 ↔ 0 < issues.length) := by
  refine ⟨?_, ?_, ?_⟩
  · simp [mainExitCode, h1]
  · simp [mainExitCode, h2]
  · cases issues <;> simp [mainExitCode]

/-- Witness for C3 on a one-issue list and the empty list. -/
theorem c3_exit_status_witness :
    mainExitCode [⟨"a.f90", some 3, "m"⟩] = 1 ∧ mainExitCode [] = 0 ∧
      (mainExitCode [⟨"a.f90", some 3, "m"⟩] ≠ 0 ↔
        0 < ([⟨"a.f90", some 3, "m"⟩] : List Issue).length) :=
  c3_exit_status [⟨"a.f90", some 3, "m"⟩] [] [⟨"a.f90", some 3, "m"⟩] (by simp) rfl

/-- C4 counterexample: `__process` does not sort the aggregated sequence by
file path — two plain-file candidates given in the order `b.f90`, `a.f90`
yield their issues in that discovery order, which is not sorted by path. -/
theorem c4_not_sorted_counterexample :
    process ⟨fun _ => false, fun _ => []⟩ (fun _ => false)
        (fun p => [⟨p, none, "trailing whitespace"⟩]) 3 ["b.f90", "a.f90"] =
      some ([⟨"b.f90", none, "trailing whitespace"⟩,
             ⟨"a.f90", none, "trailing whitespace"⟩], []) ∧
    sortedByFilePath [⟨"b.f90", none, "trailing whitespace"⟩,
                      ⟨"a.f90", none, "trailing whitespace"⟩] = false :=
  ⟨rfl, rfl⟩

/-- C4 (amended): the aggregated issue sequence is the concatenation of the
per-file issue lists in the order the candidate queue is consumed — for a
candidate list of plain files, exactly `candidates.flatMap check` — and no
sort by file path is applied to the merged sequence. -/
theorem c4_traversal_order (fs : FileSys) (hot : String → Bool)
    (check : Path → List Issue) (fuel : Nat) (cands : List Path)
    (hfiles : ∀ p ∈ cands, fs.isDir p = false) (hfuel : cands.length ≤ fuel) :
    process fs hot check fuel cands = some (cands.flatMap check, []) := by
  obtain ⟨extra, hex⟩ := Nat.exists_eq_add_of_le hfuel
  subst hex
  have := processAux_all_files fs hot check cands extra [] hfiles
  simpa [process] using this

/-- Witness for the amended C4 on two plain files. -/
theorem c4_traversal_order_witness :
    process ⟨fun _ => false, fun _ => []⟩ (fun _ => false)
        (fun p => [⟨p, none, "m"⟩]) 2 ["a.f90", "b.f90"] =
      some ([⟨"a.f90", none, "m"⟩, ⟨"b.f90", none, "m"⟩], []) :=
  c4_traversal_order ⟨fun _ => false, fun _ => []⟩ (fun _ => false)
    (fun p => [⟨p, none, "m"⟩]) 2 ["a.f90", "b.f90"] (fun p _ => rfl) (by decide)

/-- C5: `perform` is deterministic — two runs on the same configuration,
sources, styles, mappings, verbosity, factory state, filesystem and check
engine that both complete normally return the same issue list and print the
same stderr and stdout lines. -/
theorem c5_deterministic (fs : FileSys) (check : List Style → Path → List Issue)
    (fuel : Nat) (config : Configuration) (source : List Path) (style : List String)
    (map_extension : List String) (verbose : Bool) (f0 f1 f2 : Factory)
    (is1 is2 : List Issue) (e1 e2 o1 o2 : List String)
    (h1 : perform fs check fuel config source style map_extension verbose f0 =
      (f1, PerformOutcome.ok is1 e1 o1))
    (h2 : perform fs check fuel config source style map_extension verbose f0 =
      (f2, PerformOutcome.ok is2 e2 o2)) :
    is1 = is2 ∧ e1 = e2 ∧ o1 = o2 := by
  rw [h1] at h2
  injection h2 with hf ho
  injection ho with hi he hout
  exact ⟨hi, he, hout⟩

/-- Witness for C5 on a concrete completed run, taken twice. -/
theorem c5_deterministic_witness :
    perform ⟨fun _ => false, fun _ => []⟩ (fun _ _ => []) 1 ⟨[("st", "s1")], []⟩
        [] [] [] false (fun _ => none) =
      ((fun _ => none : Factory), PerformOutcome.ok [] [] []) ∧
    ([] : List Issue) = [] ∧ ([] : List String) = [] ∧ ([] : List String) = [] :=
  ⟨rfl, c5_deterministic ⟨fun _ => false, fun _ => []⟩ (fun _ _ => []) 1 ⟨[("st", "s1")], []⟩
    [] [] [] false (fun _ => none) (fun _ => none) (fun _ => none) [] [] [] [] [] []
    rfl rfl⟩

/-- C6: a configuration defining zero styles makes `perform` raise the
no-styles error at once — for every filesystem, check engine and fuel, the
result is that error with the factory exactly as it was on entry, so no
engine is consulted, no file checked and no pipeline registered. -/
theorem c6_no_styles_error (fs : FileSys) (check : List Style → Path → List Issue)
    (fuel : Nat) (config : Configuration) (source : List Path) (style : List String)
    (map_extension : List String) (verbose : Bool) (f0 : Factory)
    (h : config.styles = []) :
    perform fs check fuel config source style map_extension verbose f0 =
      (f0, PerformOutcome.err ⟨"No styles are defined by the configuration."⟩) := by
  simp [perform, h]

/-- Witness for C6 on an empty configuration. -/
theorem c6_no_styles_error_witness :
    perform ⟨fun _ => false, fun _ => []⟩ (fun _ _ => []) 1 ⟨[], []⟩ [] [] [] false
        (fun _ => none) =
      ((fun _ => none : Factory),
       PerformOutcome.err ⟨"No styles are defined by the configuration."⟩) :=
  c6_no_styles_error ⟨fun _ => false, fun _ => []⟩ (fun _ _ => []) 1 ⟨[], []⟩ [] [] []
    false (fun _ => none) rfl

/-- C7: when the selected-style list contains a name the configuration does
not define, `perform` raises a `StylistException` and returns with the
factory exactly as it was on entry — before any pipeline registration and
before any file is checked, so no issues are produced. -/
theorem c7_unknown_style_error (fs : FileSys) (check : List Style → Path → List Issue)
    (fuel : Nat) (config : Configuration) (source : List Path) (style : List String)
    (map_extension : List String) (verbose : Bool) (f0 : Factory)
    (h : ∃ n, n ∈ style ∧ lookupStyle config.styles n = none) :
    (perform fs check fuel config source style map_extension verbose f0).2.isErr = true ∧
    (perform fs check fuel config source style map_extension verbose f0).1 = f0 := by
  obtain ⟨n, hmem, hnone⟩ := h
  have hne : style.isEmpty = false := by
    cases style with
    | nil => simp at hmem
    | cons a as => rfl
  cases hz : (config.styles.length == 0) with
  | true => simp [perform, hz, PerformOutcome.isErr]
  | false =>
    obtain ⟨e, he⟩ := selectNamed_err config style ⟨n, hmem, hnone⟩
    simp [perform, hz, selectStyles, hne, he, PerformOutcome.isErr]

/-- Witness for C7: requesting the undefined style `ghost`. -/
theorem c7_unknown_style_error_witness :
    (perform ⟨fun _ => false, fun _ => []⟩ (fun _ _ => []) 1 ⟨[("st", "s1")], []⟩ []
        ["ghost"] [] false (fun _ => none)).2.isErr = true ∧
    (perform ⟨fun _ => false, fun _ => []⟩ (fun _ _ => []) 1 ⟨[("st", "s1")], []⟩ []
        ["ghost"] [] false (fun _ => none)).1 = (fun _ => none : Factory) :=
  c7_unknown_style_error ⟨fun _ => false, fun _ => []⟩ (fun _ _ => []) 1
    ⟨[("st", "s1")], []⟩ [] ["ghost"] [] false (fun _ => none)
    ⟨"ghost", by decide, rfl⟩

/-- C8: a non-directory candidate handed to `__process` directly is checked
whatever its extension and whatever the registered extensions; an entry
discovered inside a directory is enqueued exactly when its extension
(without the leading dot) is registered or it is itself a directory — a
plain entry with an unregistered extension is dropped, a plain entry with a
registered extension is checked, and a directory entry is enqueued and
descended even when its own extension is unregistered, so a file inside it
is still reached and checked. -/
theorem c8_candidate_filtering (fs : FileSys) (check : Path → List Issue)
    (hot0 hot1 hot2 hot3 : String → Bool) (p d c d2 cd : Path) (fuel : Nat)
    (h1 : fs.isDir p = false) (h2 : fs.isDir d = true) (h3 : fs.children d = [c])
    (h4 : fs.isDir c = false) (h5 : hot1 (suffixTail c) = false)
    (h6 : hot2 (suffixTail c) = true)
    (h7 : fs.isDir d2 = true) (h8 : fs.children d2 = [cd])
    (h9 : fs.isDir cd = true) (_h10 : hot3 (suffixTail cd) = false)
    (h11 : fs.children cd = [c]) (h12 : hot3 (suffixTail c) = true) :
    process fs hot0 check (fuel + 1) [p] = some (check p, []) ∧
    process fs hot1 check (fuel + 1) [d] = some ([], []) ∧
    process fs hot2 check (fuel + 2) [d] = some (check c, []) ∧
    process fs hot3 check (fuel + 3) [d2] = some (check c, []) := by
  refine ⟨?_, ?_, ?_, ?_⟩
  · rw [process, processAux_cons, if_neg (by simp [h1])]
    rw [processAux_nil]
    simp
  · rw [process, processAux_cons, if_pos h2, h3]
    simp only [List.nil_append]
    rw [show List.filter (fun l => hot1 (suffixTail l) || fs.isDir l) [c] = [] by
      simp [List.filter, h4, h5]]
    rw [processAux_nil]
  · rw [process, processAux_cons, if_pos h2, h3]
    simp only [List.nil_append]
    rw [show List.filter (fun l => hot2 (suffixTail l) || fs.isDir l) [c] = [c] by
      simp [List.filter, h6]]
    rw [processAux_cons, if_neg (by simp [h4]), processAux_nil]
    simp
  · rw [process, processAux_cons, if_pos h7, h8]
    simp only [List.nil_append]
    rw [show List.filter (fun l => hot3 (suffixTail l) || fs.isDir l) [cd] = [cd] by
      simp [List.filter, h9]]
    rw [processAux_cons, if_pos h9, h11]
    simp only [List.nil_append]
    rw [show List.filter (fun l => hot3 (suffixTail l) || fs.isDir l) [c] = [c] by
      simp [List.filter, h12]]
    rw [processAux_cons, if_neg (by simp [h4]), processAux_nil]
    simp

/-- Witness for C8: `a.foo` has no registered extension yet is checked when
passed directly; the plain file `c.bar` inside `dir` is dropped when `bar`
is unregistered and checked when it is registered; and the subdirectory
`sub.nohot` inside `dir2`, whose own extension `nohot` is unregistered, is
still enqueued and descended, so the `c.bar` inside it is checked. -/
theorem c8_candidate_filtering_witness :
    process ⟨fun p => p == "dir" || p == "dir2" || p == "sub.nohot",
             fun p => if p == "dir" then ["c.bar"] else
                      if p == "dir2" then ["sub.nohot"] else
                      if p == "sub.nohot" then ["c.bar"] else []⟩
        (fun _ => false) (fun p => [⟨p, none, "m"⟩]) 2 ["a.foo"] =
      some ([⟨"a.foo", none, "m"⟩], []) ∧
    process ⟨fun p => p == "dir" || p == "dir2" || p == "sub.nohot",
             fun p => if p == "dir" then ["c.bar"] else
                      if p == "dir2" then ["sub.nohot"] else
                      if p == "sub.nohot" then ["c.bar"] else []⟩
        (fun _ => false) (fun p => [⟨p, none, "m"⟩]) 2 ["dir"] = some ([], []) ∧
    process ⟨fun p => p == "dir" || p == "dir2" || p == "sub.nohot",
             fun p => if p == "dir" then ["c.bar"] else
                      if p == "dir2" then ["sub.nohot"] else
                      if p == "sub.nohot" then ["c.bar"] else []⟩
        (fun _ => true) (fun p => [⟨p, none, "m"⟩]) 3 ["dir"] =
      some ([⟨"c.bar", none, "m"⟩], []) ∧
    process ⟨fun p => p == "dir" || p == "dir2" || p == "sub.nohot",
             fun p => if p == "dir" then ["c.bar"] else
                      if p == "dir2" then ["sub.nohot"] else
                      if p == "sub.nohot" then ["c.bar"] else []⟩
        (fun e => e == "bar") (fun p => [⟨p, none, "m"⟩]) 4 ["dir2"] =
      some ([⟨"c.bar", none, "m"⟩], []) :=
  c8_candidate_filtering
    ⟨fun p => p == "dir" || p == "dir2" || p == "sub.nohot",
     fun p => if p == "dir" then ["c.bar"] else
              if p == "dir2" then ["sub.nohot"] else
              if p == "sub.nohot" then ["c.bar"] else []⟩
    (fun p => [⟨p, none, "m"⟩]) (fun _ => false) (fun _ => false) (fun _ => true)
    (fun e => e == "bar") "a.foo" "dir" "c.bar" "dir2" "sub.nohot" 1
    rfl rfl rfl rfl rfl rfl rfl rfl rfl rfl rfl rfl

/-- C9: the candidate queue is consumed from the front with discoveries
appended at the back, and whenever `__process` returns, the queue it leaves
behind — the mutated `source` list of the caller — is empty. -/
theorem c9_candidates_drained (fs : FileSys) (hot : String → Bool)
    (check : Path → List Issue) (fuel : Nat) (cands : List Path)
    (is : List Issue) (rest : List Path)
    (h : process fs hot check fuel cands = some (is, rest)) : rest = [] :=
  processAux_snd_nil fs hot check fuel cands [] is rest h

/-- Witness for C9 on a one-file run. -/
theorem c9_candidates_drained_witness :
    process ⟨fun _ => false, fun _ => []⟩ (fun _ => false) (fun p => [⟨p, none, "m"⟩]) 2
        ["a.f90"] = some ([⟨"a.f90", none, "m"⟩], []) ∧ ([] : List Path) = [] :=
  ⟨rfl, c9_candidates_drained ⟨fun _ => false, fun _ => []⟩ (fun _ => false)
    (fun p => [⟨p, none, "m"⟩]) 2 ["a.f90"] [⟨"a.f90", none, "m"⟩] [] rfl⟩

/-- C10: on a completed run, `perform` prints exactly the issues, in
aggregation order, to stderr; prints the summary line exactly when the issue
count is positive or verbose is set; appends the plural `s` exactly when the
count exceeds 1; and a verbose run with zero issues prints `Found 0 issue`. -/
theorem c10_report_format (fs : FileSys) (check : List Style → Path → List Issue)
    (fuel : Nat) (config : Configuration) (source : List Path) (style : List String)
    (map_extension : List String) (verbose : Bool) (f0 fr : Factory)
    (issues : List Issue) (errL outL : List String)
    (h : perform fs check fuel config source style map_extension verbose f0 =
      (fr, PerformOutcome.ok issues errL outL)) :
    errL = issues.map Issue.str ∧
    (outL ≠ [] ↔ (0 < issues.length ∨ verbose = true)) ∧
    outL = (if 0 < issues.length ∨ verbose = true then
             ["Found " ++ toString issues.length ++ " issue" ++
               (if 1 < issues.length then "s" else "")]
           else []) ∧
    (issues = [] → verbose = true → outL = ["Found 0 issue"]) := by
  rw [perform] at h
  split at h
  · simp at h
  · split at h
    · simp at h
    · dsimp only at h
      split at h
      · simp at h
      · split at h
        · simp at h
        · rename_i is0 snd0 heq
          injection h with hf ho
          injection ho with hi he hout
          subst hi
          refine ⟨he.symm, ?_, ?_, ?_⟩
          · by_cases hc2 : 0 < is0.length ∨ verbose = true
            · rw [← hout, if_pos hc2]
              simp [hc2]
            · rw [← hout, if_neg hc2]
              simp [hc2]
          · exact hout.symm
          · intro hiss hv
            subst hiss
            subst hv
            rw [← hout]
            simp
            rfl

/-- Witness for C10 on a verbose zero-issue run, which prints
`Found 0 issue` with no plural `s`. -/
theorem c10_report_format_witness :
    perform ⟨fun _ => false, fun _ => []⟩ (fun _ _ => []) 1 ⟨[("st", "s1")], []⟩ [] [] [] true
        (fun _ => none) =
      ((fun _ => none : Factory), PerformOutcome.ok [] [] ["Found 0 issue"]) ∧
    (([] : List String) = ([] : List Issue).map Issue.str ∧
     ((["Found 0 issue"] : List String) ≠ [] ↔ (0 < ([] : List Issue).length ∨ true = true)) ∧
     (["Found 0 issue"] : List String) =
       (if 0 < ([] : List Issue).length ∨ true = true then
         ["Found " ++ toString ([] : List Issue).length ++ " issue" ++
           (if 1 < ([] : List Issue).length then "s" else "")]
       else []) ∧
     (([] : List Issue) = [] → true = true → (["Found 0 issue"] : List String) = ["Found 0 issue"])) :=
  ⟨rfl, c10_report_format ⟨fun _ => false, fun _ => []⟩ (fun _ _ => []) 1 ⟨[("st", "s1")], []⟩
    [] [] [] true (fun _ => none) (fun _ => none) [] [] ["Found 0 issue"] rfl⟩

end Stylist
